import Mathlib

/-!
Verification of the period-indexed market-share and calibration engine of
gcam-core against its specification.

The container code is embedded from
`src/cvs/objects/util/base/include/time_vector.h`, whose templates carry
their full implementations in the header.  `Subsector` (subsector.h) and
`World` (world.h) appear in src/ as declarations only, so the operations
the claims need from them are modelled from the spec; each such definition
says so in its doc comment.

Machine memory is modelled as a total map from addresses (`Nat`) to values;
an object of `TimeVectorBase<T>` is a record of its own address (used by the
self-assignment check, which compares `this` pointers), the address of its
backing array `mData`, and its size `mSize`.  Iterators of the source are
plain pointers (boost::iterator_adaptor over `T*`), so they are embedded as
addresses.  `util::isValidNumber`, which lives outside src/, is an abstract
predicate parameter.
-/

namespace GcamCore

/-- Address space: a total map from addresses to stored values. -/
abbrev Mem (T : Type) : Type := Nat → T

/-- Write one value at one address. -/
def memWrite {T : Type} (m : Mem T) (a : Nat) (x : T) : Mem T :=
  fun b => if b = a then x else m b

/-- Embeds the data members of `TimeVectorBase<T>` (time_vector.h lines
156-161) plus the address of the object itself, which the source's
assignment operator compares (`this != &aOther`). -/
structure TimeVectorBase (T : Type) where
  objId : Nat
  mData : Nat
  mSize : Nat

/-- Embeds `TimeVectorBase<T>::init` (time_vector.h lines 205-214): fill the
backing array `[base, base + n)` with the default value. -/
def initFill {T : Type} (m : Mem T) (base n : Nat) (aDefaultValue : T) : Mem T :=
  fun a => if base ≤ a ∧ a < base + n then aDefaultValue else m a

/-- The constructor `TimeVectorBase(aSize, aDefaultValue)` (lines 176-181):
the fresh object and the memory after `init`.  `objId` and `base` stand for
the addresses the allocator handed out. -/
def mkTimeVectorBase {T : Type} (objId base aSize : Nat) (aDefaultValue : T) (m : Mem T) :
    TimeVectorBase T × Mem T :=
  ({ objId := objId, mData := base, mSize := aSize }, initFill m base aSize aDefaultValue)

/-- Embeds `std::copy( aOther.begin(), aOther.end(), begin() )`: copy `n` values
from the block at `src` onto the block at `dst`. -/
def copyRange {T : Type} (m : Mem T) (src dst n : Nat) : Mem T :=
  fun a => if dst ≤ a ∧ a < dst + n then m (src + (a - dst)) else m a

/-- The copy constructor (lines 220-224): `init( aOther.mSize, T() )` at a
fresh base, then element-wise `std::copy` from the other vector.  `dflt`
is the value of the value-initialized `T()`. -/
def copyCtor {T : Type} (dflt : T) (other : TimeVectorBase T) (newId newBase : Nat)
    (m : Mem T) : TimeVectorBase T × Mem T :=
  let m1 := initFill m newBase other.mSize dflt
  ({ objId := newId, mData := newBase, mSize := other.mSize },
   copyRange m1 other.mData newBase other.mSize)

/-- Embeds `operator=` (lines 232-241): the self-assignment check
`this != &aOther` compares object addresses; otherwise `clear()`,
`init( aOther.size(), T() )` at a fresh base, then `std::copy`. -/
def assignOp {T : Type} (dflt : T) (self other : TimeVectorBase T) (newBase : Nat)
    (m : Mem T) : TimeVectorBase T × Mem T :=
  if self.objId = other.objId then (self, m)
  else
    let m1 := initFill m newBase other.mSize dflt
    ({ objId := self.objId, mData := newBase, mSize := other.mSize },
     copyRange m1 other.mData newBase other.mSize)

/-- Embeds `operator==` (lines 250-253): `size() == aOther.size() &&
equal( begin(), end(), aOther.begin() )`. -/
def operatorEq {T : Type} [DecidableEq T] (m : Mem T) (a b : TimeVectorBase T) : Bool :=
  decide (a.mSize = b.mSize) &&
    (List.range a.mSize).all fun i => decide (m (a.mData + i) = m (b.mData + i))

/-- Embeds `begin()` (lines 294-297 and 324-327): a pointer to `mData`. -/
def beginIter {T : Type} (v : TimeVectorBase T) : Nat := v.mData

/-- Embeds `end()` (lines 304-307 and 334-337): a pointer to `mData + size()`. -/
def endIter {T : Type} (v : TimeVectorBase T) : Nat := v.mData + v.mSize

/-- Two's-complement conversion of a size below 2^32 to a 32-bit signed
int: the value of `int( size() )` on the 32-bit-int targets the source
runs on.  `mSize` stays below 2^32 because the `TimeVectorBase`
constructor takes its size as `unsigned int`. -/
def wrap32 (n : Nat) : Int := (((n + 2 ^ 31) % 2 ^ 32 : Nat) : Int) - 2 ^ 31

/-- Embeds `last()` (lines 313-318 and 343-348):
`mData + std::max( int( size() ) - 1, 0 )`, where `int( size() )` is the
wrapping size_t-to-int conversion.  (At `mSize = 2^31` exactly the
source's `int( size() ) - 1` is signed overflow, undefined behavior; the
embedding extends it with the two's-complement value, and no theorem
below relies on that point.) -/
def lastIter {T : Type} (v : TimeVectorBase T) : Nat :=
  v.mData + (max (wrap32 v.mSize - 1) 0).toNat

/-- Embeds `YearVector<T>` (lines 360-395): a `TimeVectorBase` together with the
inclusive start and end years. -/
structure YearVector (T : Type) extends TimeVectorBase T where
  mStartYear : Nat
  mEndYear : Nat

/-- The `YearVector( aStartYear, aEndYear, aDefaultValue )` constructor
(lines 405-414): base size `aEndYear - aStartYear + 1`.  The source does
this subtraction on `unsigned int`; for `aStartYear ≤ aEndYear` (the only
regime the claims touch) truncated `Nat` subtraction agrees with it. -/
def mkYearVector {T : Type} (objId base aStartYear aEndYear : Nat) (aDefaultValue : T)
    (m : Mem T) : YearVector T × Mem T :=
  let p := mkTimeVectorBase objId base (aEndYear - aStartYear + 1) aDefaultValue m
  ({ toTimeVectorBase := p.1, mStartYear := aStartYear, mEndYear := aEndYear }, p.2)

/-- Embeds `YearVector<T>::operator[]` (lines 438-461): assert the year lies in
`[mStartYear, mEndYear]`, assert `isValidNumber` of the stored value, then
return a reference to `mData[ aYear - mStartYear ]`.  A passed assertion
yields `some` of the referenced address; a failed assertion is `none`. -/
def yearVectorIndex {T : Type} (isValidNumber : T → Bool) (m : Mem T) (v : YearVector T)
    (aYear : Nat) : Option Nat :=
  if v.mStartYear ≤ aYear ∧ aYear ≤ v.mEndYear then
    if isValidNumber (m (v.mData + (aYear - v.mStartYear))) then
      some (v.mData + (aYear - v.mStartYear))
    else none
  else none

/-- The value read through a successful `YearVector<T>::operator[]`. -/
def yearVectorGet {T : Type} (isValidNumber : T → Bool) (m : Mem T) (v : YearVector T)
    (aYear : Nat) : Option T :=
  (yearVectorIndex isValidNumber m v aYear).map m

/-- Embeds `YearVector<T>::find` (const overload, lines 470-478): out-of-range
years return `end()`; otherwise the source builds the returned iterator
from the bare offset, `const_iterator( aYear - mStartYear )`, so the
iterator's underlying pointer is that offset, not `mData` plus it.  (The
mutable overload at lines 487-495 instead calls a two-argument iterator
constructor that the iterator type does not declare.) -/
def yearVectorFind {T : Type} (v : YearVector T) (aYear : Nat) : Nat :=
  if aYear < v.mStartYear ∨ v.mEndYear < aYear then endIter v.toTimeVectorBase
  else aYear - v.mStartYear

/-- Embeds `PeriodVector<T>` (lines 523-555); it adds no data member; its constructor
sizes the base to `scenario->getModeltime()->getmaxper()`, passed here as
`maxper` since the Modeltime object is outside src/. -/
def mkPeriodVector {T : Type} (objId base maxper : Nat) (aDefaultValue : T) (m : Mem T) :
    TimeVectorBase T × Mem T :=
  mkTimeVectorBase objId base maxper aDefaultValue m

/-- Embeds `PeriodVector<T>::operator[]` (lines 562-579): assert
`aIndex < size()`, assert `isValidNumber` of the stored value, then return
a reference to `mData[ aIndex ]`. -/
def periodVectorIndex {T : Type} (isValidNumber : T → Bool) (m : Mem T)
    (v : TimeVectorBase T) (aIndex : Nat) : Option Nat :=
  if aIndex < v.mSize then
    if isValidNumber (m (v.mData + aIndex)) then some (v.mData + aIndex) else none
  else none

/-- The value read through a successful `PeriodVector<T>::operator[]`. -/
def periodVectorGet {T : Type} (isValidNumber : T → Bool) (m : Mem T)
    (v : TimeVectorBase T) (aIndex : Nat) : Option T :=
  (periodVectorIndex isValidNumber m v aIndex).map m

/-- One child alternative of a ShareComputer, with its per-period share
weight and price (the inputs of the logit formula of the spec). -/
structure ShareChild where
  shareWeight : Nat → ℚ
  price : Nat → ℚ

/-- The ShareComputer state the modelled operations act on: the children,
the logit exponent, the per-period computed-share entries, and the
per-period subsector share weights that calibration rescales. -/
structure ShareComputer where
  children : List ShareChild
  lexp : ℤ
  share : List (List ℚ)
  shrwts : List ℚ

/-- Modelled from the spec: `Subsector::calcShare` is declared at
subsector.h line 99 but its body is not in src/.  The spec: compute each
child's share via `shareWeight_i * price_i^(-logitExponent)` normalized
across siblings (logit form).  The logit exponent is modelled as an
integer so the power is exact rational arithmetic; the sum-to-one
property depends only on the powers being positive. -/
def calcShareList (sc : ShareComputer) (period : Nat) : List ℚ :=
  let unnormalized :=
    sc.children.map fun c => c.shareWeight period * c.price period ^ (-sc.lexp)
  unnormalized.map fun u => u / unnormalized.sum

/-- Modelled from the spec: the side effect of `Subsector::calcShare`
(subsector.h line 99): write the share array entry for the period. -/
def calcShare (sc : ShareComputer) (period : Nat) : ShareComputer :=
  { sc with share := sc.share.set period (calcShareList sc period) }

/-- Modelled from the spec: `Subsector::capLimitTransform` is declared at
subsector.h line 76 but its body is not in src/.  The spec: a smooth
transform that approaches the cap asymptotically as `orgShare` grows and
preserves `orgShare` when it is well below the cap.  Modelled as the
hyperbolic transform `capLimit * orgShare / (capLimit + orgShare)`. -/
def capLimitTransform (capLimit orgShare : ℚ) : ℚ :=
  capLimit * orgShare / (capLimit + orgShare)

/-- Modelled from the spec: `Subsector::adjustForCalibration` is declared
at subsector.h line 129 but its body is not in src/.  The spec: scale the
period's share weight so computed output converges toward the calibration
target net of fixed supply, guarding the division when `totalCalOutputs`
is zero by falling back to the unscaled weights. -/
def adjustForCalibration (sc : ShareComputer)
    (sectorDemand totalFixedSupply totalCalOutputs : ℚ) (period : Nat) : ShareComputer :=
  if totalCalOutputs = 0 then sc
  else
    { sc with
      shrwts := sc.shrwts.set period
        (sc.shrwts.getD period 0 * ((sectorDemand - totalFixedSupply) / totalCalOutputs)) }

/-- A geographic unit as the orchestrator sees it: its per-period,
per-accuracy calibration report. -/
structure RegionCal where
  calibrated : Nat → ℚ → Bool

/-- The orchestrator state `World::isAllCalibrated` reads: the owned
regions (world.h line 140) and the calibration switch (line 143). -/
structure World where
  regions : List RegionCal
  doCalibrations : Bool

/-- Modelled from the spec: `World::isAllCalibrated` is declared at
world.h line 115 but its body is not in src/.  The spec: true only if
every owned unit reports calibrated for that period; `printWarnings` is
diagnostic verbosity only, with no behavioral effect. -/
def isAllCalibrated (w : World) (period : Nat) (calAccuracy : ℚ)
    (printWarnings : Bool) : Bool :=
  w.regions.all fun r => r.calibrated period calAccuracy

/-- Claim C10 counterexample: at the reachable size 3000000000 (between
INT_MAX and UINT_MAX, reachable through the unsigned-int constructor),
the size_t-to-int conversion wraps negative, the max clamps to 0, and
`last()` returns `begin()`, not position `size - 1`, refuting the claim
as stated for a size of at least 1. -/
theorem lastIter_claim_counterexample :
    1 ≤ (⟨0, 0, 3000000000⟩ : TimeVectorBase ℚ).mSize ∧
    lastIter (⟨0, 0, 3000000000⟩ : TimeVectorBase ℚ)
      = beginIter (⟨0, 0, 3000000000⟩ : TimeVectorBase ℚ) ∧
    lastIter (⟨0, 0, 3000000000⟩ : TimeVectorBase ℚ) ≠ 0 + (3000000000 - 1) :=
  ⟨by decide, by decide, by decide⟩

/-- Claim C10 as amended: `last()` returns an iterator to position
`size - 1` when the size is between 1 and INT_MAX, and returns the
position-0 iterator, equal to `begin()`, both when the size is 0 and in
the wrap regime INT_MAX < size < 2^32, where `int( size() )` is
negative. -/
theorem lastIter_spec {T : Type} (v : TimeVectorBase T) :
    (1 ≤ v.mSize → v.mSize ≤ 2 ^ 31 - 1 → lastIter v = v.mData + (v.mSize - 1)) ∧
    (v.mSize = 0 → lastIter v = beginIter v) ∧
    (2 ^ 31 < v.mSize → v.mSize < 2 ^ 32 → lastIter v = beginIter v) := by
  unfold lastIter wrap32 beginIter
  refine ⟨?_, ?_, ?_⟩ <;> intros <;> omega

/-- Witness for C10: on a 3-element vector at base 5, `last()` is 7; on an
empty vector, and on a vector of wrapped size 3000000000 at base 9,
`last()` equals `begin()`. -/
theorem lastIter_spec_witness :
    (1 ≤ (⟨0, 5, 3⟩ : TimeVectorBase ℚ).mSize ∧
      lastIter (⟨0, 5, 3⟩ : TimeVectorBase ℚ) = 7) ∧
    ((⟨0, 9, 0⟩ : TimeVectorBase ℚ).mSize = 0 ∧
      lastIter (⟨0, 9, 0⟩ : TimeVectorBase ℚ) = beginIter (⟨0, 9, 0⟩ : TimeVectorBase ℚ)) ∧
    (2 ^ 31 < (⟨0, 9, 3000000000⟩ : TimeVectorBase ℚ).mSize ∧
      lastIter (⟨0, 9, 3000000000⟩ : TimeVectorBase ℚ)
        = beginIter (⟨0, 9, 3000000000⟩ : TimeVectorBase ℚ)) :=
  ⟨⟨by decide, (lastIter_spec (⟨0, 5, 3⟩ : TimeVectorBase ℚ)).1 (by decide) (by decide)⟩,
   ⟨rfl, (lastIter_spec (⟨0, 9, 0⟩ : TimeVectorBase ℚ)).2.1 rfl⟩,
   ⟨by decide, (lastIter_spec (⟨0, 9, 3000000000⟩ : TimeVectorBase ℚ)).2.2
      (by decide) (by decide)⟩⟩

/-- Claim C8: `isAllCalibrated` is true exactly when every owned region
reports calibrated for the period, and is false whenever at least one
owned region does not. -/
theorem isAllCalibrated_spec (w : World) (period : Nat) (acc : ℚ) (pw : Bool) :
    (isAllCalibrated w period acc pw = true ↔
      ∀ r ∈ w.regions, r.calibrated period acc = true) ∧
    (∀ r ∈ w.regions, r.calibrated period acc = false →
      isAllCalibrated w period acc pw = false) := by
  constructor
  · simp [isAllCalibrated, List.all_eq_true]
  · intro r hr hf
    cases hall : isAllCalibrated w period acc pw
    · rfl
    · have := (List.all_eq_true.mp hall) r hr
      rw [hf] at this
      exact absurd this (by simp)

/-- Witness for C8: a world with one calibrated and one uncalibrated
region is not all-calibrated. -/
theorem isAllCalibrated_spec_witness :
    isAllCalibrated
      (⟨[⟨fun _ _ => true⟩, ⟨fun _ _ => false⟩], true⟩ : World) 0 0 true = false :=
  (isAllCalibrated_spec (⟨[⟨fun _ _ => true⟩, ⟨fun _ _ => false⟩], true⟩ : World) 0 0 true).2
    ⟨fun _ _ => false⟩ (List.mem_cons_of_mem _ (List.mem_cons_self _ _)) rfl

/-- Claim C3: `adjustForCalibration` with `totalCalOutputs == 0` takes the
divide-by-zero guard branch, leaving the whole state, in particular the
period's share weights, unchanged. -/
theorem adjustForCalibration_zero_guard (sc : ShareComputer)
    (sectorDemand totalFixedSupply totalCalOutputs : ℚ) (period : Nat)
    (h : totalCalOutputs = 0) :
    adjustForCalibration sc sectorDemand totalFixedSupply totalCalOutputs period = sc ∧
    (adjustForCalibration sc sectorDemand totalFixedSupply totalCalOutputs period).shrwts
      = sc.shrwts := by
  subst h
  simp [adjustForCalibration]

/-- Witness for C3: a concrete state with share weights `[1, 2]` is left
untouched by a zero-total-calibration adjustment. -/
theorem adjustForCalibration_zero_guard_witness :
    (0 : ℚ) = 0 ∧
    (adjustForCalibration (⟨[], 2, [], [1, 2]⟩ : ShareComputer) 7 3 0 1
      = (⟨[], 2, [], [1, 2]⟩ : ShareComputer) ∧
    (adjustForCalibration (⟨[], 2, [], [1, 2]⟩ : ShareComputer) 7 3 0 1).shrwts = [1, 2]) :=
  ⟨rfl, adjustForCalibration_zero_guard (⟨[], 2, [], [1, 2]⟩ : ShareComputer) 7 3 0 1 rfl⟩

/-- Claim C5 evidence: on a concrete YearVector whose backing data lives at
address 100, `find` on the in-range year 2001 returns the iterator address
1 (the bare offset `aYear - mStartYear` the source feeds to the iterator
constructor), which is neither the address 101 of that year's stored slot
nor the end iterator at 103. -/
theorem yearVectorFind_misses_slot :
    yearVectorFind (⟨⟨7, 100, 3⟩, 2000, 2002⟩ : YearVector ℚ) 2001 = 1 ∧
    (⟨⟨7, 100, 3⟩, 2000, 2002⟩ : YearVector ℚ).mData + (2001 - 2000) = 101 ∧
    yearVectorFind (⟨⟨7, 100, 3⟩, 2000, 2002⟩ : YearVector ℚ) 2001 ≠ 101 ∧
    yearVectorFind (⟨⟨7, 100, 3⟩, 2000, 2002⟩ : YearVector ℚ) 2001 ≠
      endIter (⟨⟨7, 100, 3⟩, 2000, 2002⟩ : YearVector ℚ).toTimeVectorBase := by
  refine ⟨rfl, rfl, by decide, by decide⟩

/-- Claim C7: element access via `operator[]` yields a reference to the
stored element when the index is in bounds (under the data invariant that
the stored value passes the validity assertion), and an out-of-bounds year
or position fails the precondition assertion instead of returning a
value — for both `YearVector` and `PeriodVector`. -/
theorem operatorIndex_spec {T : Type} (isValidNumber : T → Bool) (m : Mem T)
    (v : YearVector T) (pv : TimeVectorBase T) (y i : Nat) :
    (v.mStartYear ≤ y → y ≤ v.mEndYear →
      isValidNumber (m (v.mData + (y - v.mStartYear))) = true →
      yearVectorIndex isValidNumber m v y = some (v.mData + (y - v.mStartYear))) ∧
    (¬ (v.mStartYear ≤ y ∧ y ≤ v.mEndYear) →
      yearVectorIndex isValidNumber m v y = none) ∧
    (i < pv.mSize → isValidNumber (m (pv.mData + i)) = true →
      periodVectorIndex isValidNumber m pv i = some (pv.mData + i)) ∧
    (¬ i < pv.mSize → periodVectorIndex isValidNumber m pv i = none) := by
  refine ⟨?_, ?_, ?_, ?_⟩
  · intro h1 h2 hv
    simp [yearVectorIndex, h1, h2, hv]
  · intro h
    simp [yearVectorIndex, h]
  · intro h hv
    simp [periodVectorIndex, h, hv]
  · intro h
    simp [periodVectorIndex, h]

/-- Witness for C7: in a vector over 2000-2002 with data at base 10, year
2001 resolves to address 11; in a 4-period vector with data at base 20,
position 2 resolves to address 22; and the out-of-bounds year 1999 and
position 4 are refused. -/
theorem operatorIndex_spec_witness :
    yearVectorIndex (fun _ => true) (fun _ => (0 : ℚ))
      (⟨⟨0, 10, 3⟩, 2000, 2002⟩ : YearVector ℚ) 2001 = some 11 ∧
    yearVectorIndex (fun _ => true) (fun _ => (0 : ℚ))
      (⟨⟨0, 10, 3⟩, 2000, 2002⟩ : YearVector ℚ) 1999 = none ∧
    periodVectorIndex (fun _ => true) (fun _ => (0 : ℚ))
      (⟨0, 20, 4⟩ : TimeVectorBase ℚ) 2 = some 22 ∧
    periodVectorIndex (fun _ => true) (fun _ => (0 : ℚ))
      (⟨0, 20, 4⟩ : TimeVectorBase ℚ) 4 = none :=
  ⟨(operatorIndex_spec (fun _ => true) (fun _ => (0 : ℚ))
      (⟨⟨0, 10, 3⟩, 2000, 2002⟩ : YearVector ℚ) (⟨0, 20, 4⟩ : TimeVectorBase ℚ) 2001 2).1
      (by decide) (by decide) rfl,
   (operatorIndex_spec (fun _ => true) (fun _ => (0 : ℚ))
      (⟨⟨0, 10, 3⟩, 2000, 2002⟩ : YearVector ℚ) (⟨0, 20, 4⟩ : TimeVectorBase ℚ) 1999 2).2.1
      (by decide),
   (operatorIndex_spec (fun _ => true) (fun _ => (0 : ℚ))
      (⟨⟨0, 10, 3⟩, 2000, 2002⟩ : YearVector ℚ) (⟨0, 20, 4⟩ : TimeVectorBase ℚ) 2001 2).2.2.1
      (by decide) rfl,
   (operatorIndex_spec (fun _ => true) (fun _ => (0 : ℚ))
      (⟨⟨0, 10, 3⟩, 2000, 2002⟩ : YearVector ℚ) (⟨0, 20, 4⟩ : TimeVectorBase ℚ) 2001 4).2.2.2
      (by decide)⟩

/-- Claim C9: every value obtained through a successful `operator[]` access
passes the `isValidNumber` assertion, and once an invalid (non-finite)
value is written into a slot, a subsequent access of that slot fails the
assertion instead of returning the value — for both vector kinds. -/
theorem validNumber_assert_spec {T : Type} (isValidNumber : T → Bool) (m : Mem T)
    (v : YearVector T) (pv : TimeVectorBase T) :
    (∀ y x, yearVectorGet isValidNumber m v y = some x → isValidNumber x = true) ∧
    (∀ i x, periodVectorGet isValidNumber m pv i = some x → isValidNumber x = true) ∧
    (∀ y x, isValidNumber x = false → v.mStartYear ≤ y → y ≤ v.mEndYear →
      yearVectorIndex isValidNumber
        (memWrite m (v.mData + (y - v.mStartYear)) x) v y = none) ∧
    (∀ i x, isValidNumber x = false → i < pv.mSize →
      periodVectorIndex isValidNumber (memWrite m (pv.mData + i) x) pv i = none) := by
  refine ⟨?_, ?_, ?_, ?_⟩
  · intro y x h
    unfold yearVectorGet yearVectorIndex at h
    split at h
    · split at h
      · rename_i hv
        simp only [Option.map_some'] at h
        rw [Option.some_inj] at h
        rw [h] at hv
        exact hv
      · exact Option.noConfusion h
    · exact Option.noConfusion h
  · intro i x h
    unfold periodVectorGet periodVectorIndex at h
    split at h
    · split at h
      · rename_i hv
        simp only [Option.map_some'] at h
        rw [Option.some_inj] at h
        rw [h] at hv
        exact hv
      · exact Option.noConfusion h
    · exact Option.noConfusion h
  · intro y x hx h1 h2
    simp [yearVectorIndex, h1, h2, memWrite, hx]
  · intro i x hx h
    simp [periodVectorIndex, h, memWrite, hx]

/-- Witness for C9: a successful read at year 2001 returns a valid value,
and after writing an invalid value into that slot the access fails. -/
theorem validNumber_assert_spec_witness :
    Option.isSome ((fun q : ℚ => decide (0 ≤ q)) <$>
      yearVectorGet (fun q : ℚ => decide (0 ≤ q)) (fun _ => (1 : ℚ))
        (⟨⟨0, 10, 3⟩, 2000, 2002⟩ : YearVector ℚ) 2001) = true ∧
    yearVectorIndex (fun q : ℚ => decide (0 ≤ q))
      (memWrite (fun _ => (1 : ℚ)) (10 + (2001 - 2000)) (-1))
      (⟨⟨0, 10, 3⟩, 2000, 2002⟩ : YearVector ℚ) 2001 = none :=
  ⟨by decide,
   (validNumber_assert_spec (fun q : ℚ => decide (0 ≤ q)) (fun _ => (1 : ℚ))
      (⟨⟨0, 10, 3⟩, 2000, 2002⟩ : YearVector ℚ) (⟨0, 20, 4⟩ : TimeVectorBase ℚ)).2.2.1
      2001 (-1) (by decide) (by decide) (by decide)⟩

/-- Claim C4: a YearVector built from `startYear ≤ endYear` has size
`endYear − startYear + 1`, every backing slot holds the default value, and
indexing by a year in `[startYear, endYear]` accesses backing position
`year − startYear`. -/
theorem mkYearVector_spec {T : Type} (isValidNumber : T → Bool) (objId base s e : Nat)
    (d : T) (m : Mem T) (hse : s ≤ e) (hd : isValidNumber d = true) :
    (mkYearVector objId base s e d m).1.mSize = e - s + 1 ∧
    (∀ i < e - s + 1, (mkYearVector objId base s e d m).2 (base + i) = d) ∧
    (∀ y, s ≤ y → y ≤ e →
      yearVectorIndex isValidNumber (mkYearVector objId base s e d m).2
        (mkYearVector objId base s e d m).1 y = some (base + (y - s))) := by
  refine ⟨rfl, ?_, ?_⟩
  · intro i hi
    show initFill m base (e - s + 1) d (base + i) = d
    simp only [initFill]
    rw [if_pos (by omega : base ≤ base + i ∧ base + i < base + (e - s + 1))]
  · intro y hy1 hy2
    have hin : base ≤ base + (y - s) ∧ base + (y - s) < base + (e - s + 1) := by omega
    simp [mkYearVector, mkTimeVectorBase, yearVectorIndex, initFill, hy1, hy2, hin, hd]

/-- Witness for C4: the vector over 2000-2002 with data at base 10 has
size 3, slot 1 holds the default 5, and year 2001 resolves to address
10 + 1. -/
theorem mkYearVector_spec_witness :
    2000 ≤ 2002 ∧
    (mkYearVector 3 10 2000 2002 (5 : ℚ) (fun _ => 0)).1.mSize = 2002 - 2000 + 1 ∧
    (mkYearVector 3 10 2000 2002 (5 : ℚ) (fun _ => 0)).2 (10 + 1) = 5 ∧
    yearVectorIndex (fun _ => true) (mkYearVector 3 10 2000 2002 (5 : ℚ) (fun _ => 0)).2
      (mkYearVector 3 10 2000 2002 (5 : ℚ) (fun _ => 0)).1 2001 = some (10 + (2001 - 2000)) :=
  ⟨by decide,
   (mkYearVector_spec (fun _ => true) 3 10 2000 2002 (5 : ℚ) (fun _ => 0)
      (by decide) rfl).1,
   (mkYearVector_spec (fun _ => true) 3 10 2000 2002 (5 : ℚ) (fun _ => 0)
      (by decide) rfl).2.1 1 (by decide),
   (mkYearVector_spec (fun _ => true) 3 10 2000 2002 (5 : ℚ) (fun _ => 0)
      (by decide) rfl).2.2 2001 (by decide) (by decide)⟩

/-- Claim C6: copying is a deep value copy (the copy holds equal element
values, and writes through the copy never change what is read from the
original), self-assignment is a no-op, and `operator==` holds exactly when
the two vectors have equal size and element-wise equal values. -/
theorem timeVectorBase_value_semantics {T : Type} [DecidableEq T] (dflt : T)
    (v : TimeVectorBase T) (newId newBase : Nat) (m : Mem T)
    (hdisj : newBase + v.mSize ≤ v.mData ∨ v.mData + v.mSize ≤ newBase) :
    (∀ j < v.mSize, (copyCtor dflt v newId newBase m).2 (newBase + j) = m (v.mData + j)) ∧
    (∀ i < v.mSize, ∀ x : T, ∀ j < v.mSize,
      memWrite (copyCtor dflt v newId newBase m).2 (newBase + i) x (v.mData + j)
        = m (v.mData + j)) ∧
    assignOp dflt v v newBase m = (v, m) ∧
    (∀ a b : TimeVectorBase T, operatorEq m a b = true ↔
      (a.mSize = b.mSize ∧ ∀ i < a.mSize, m (a.mData + i) = m (b.mData + i))) := by
  have hpres : ∀ j < v.mSize, (copyCtor dflt v newId newBase m).2 (v.mData + j)
      = m (v.mData + j) := by
    intro j hj
    show copyRange (initFill m newBase v.mSize dflt) v.mData newBase v.mSize (v.mData + j)
      = m (v.mData + j)
    simp only [copyRange, initFill]
    rw [if_neg (by omega : ¬(newBase ≤ v.mData + j ∧ v.mData + j < newBase + v.mSize)),
      if_neg (by omega : ¬(newBase ≤ v.mData + j ∧ v.mData + j < newBase + v.mSize))]
  have hcopy : ∀ j < v.mSize,
      (copyCtor dflt v newId newBase m).2 (newBase + j) = m (v.mData + j) := by
    intro j hj
    show copyRange (initFill m newBase v.mSize dflt) v.mData newBase v.mSize (newBase + j)
      = m (v.mData + j)
    simp only [copyRange, initFill]
    rw [if_pos (by omega : newBase ≤ newBase + j ∧ newBase + j < newBase + v.mSize)]
    have hj2 : newBase + j - newBase = j := by omega
    rw [hj2,
      if_neg (by omega : ¬(newBase ≤ v.mData + j ∧ v.mData + j < newBase + v.mSize))]
  refine ⟨hcopy, ?_, ?_, ?_⟩
  · intro i hi x j hj
    simp only [memWrite]
    rw [if_neg (by omega : ¬ v.mData + j = newBase + i)]
    exact hpres j hj
  · simp [assignOp]
  · intro a b
    simp only [operatorEq, Bool.and_eq_true, decide_eq_true_eq, List.all_eq_true,
      List.mem_range]

/-- Witness for C6: copying a 2-element vector at base 0 to base 10 copies
the values, a write into the copy leaves the original's slot intact, and
self-assignment returns the identical state. -/
theorem timeVectorBase_value_semantics_witness :
    (copyCtor (0 : ℚ) (⟨0, 0, 2⟩ : TimeVectorBase ℚ) 1 10 (fun a : Nat => (a : ℚ))).2 (10 + 1)
      = (fun a : Nat => (a : ℚ)) (0 + 1) ∧
    memWrite (copyCtor (0 : ℚ) (⟨0, 0, 2⟩ : TimeVectorBase ℚ) 1 10 (fun a : Nat => (a : ℚ))).2
      (10 + 1) 99 (0 + 1) = (fun a : Nat => (a : ℚ)) (0 + 1) ∧
    assignOp (0 : ℚ) (⟨0, 0, 2⟩ : TimeVectorBase ℚ) (⟨0, 0, 2⟩ : TimeVectorBase ℚ) 10
      (fun a : Nat => (a : ℚ)) = ((⟨0, 0, 2⟩ : TimeVectorBase ℚ), fun a : Nat => (a : ℚ)) :=
  ⟨(timeVectorBase_value_semantics (0 : ℚ) (⟨0, 0, 2⟩ : TimeVectorBase ℚ) 1 10
      (fun a : Nat => (a : ℚ)) (Or.inr (by decide))).1 1 (by decide),
   (timeVectorBase_value_semantics (0 : ℚ) (⟨0, 0, 2⟩ : TimeVectorBase ℚ) 1 10
      (fun a : Nat => (a : ℚ)) (Or.inr (by decide))).2.1 1 (by decide) 99 1 (by decide),
   (timeVectorBase_value_semantics (0 : ℚ) (⟨0, 0, 2⟩ : TimeVectorBase ℚ) 1 10
      (fun a : Nat => (a : ℚ)) (Or.inr (by decide))).2.2.1⟩

/-- Claim C2: for a fixed positive cap, the transform is 0 at 0, monotone
non-decreasing in the share, strictly below the cap on nonnegative shares,
approaches the cap as the share grows without bound, and deviates from the
original share by at most the second-order term `share * share / cap`, so
it preserves shares well below the cap. -/
theorem capLimitTransform_spec (L : ℚ) (hL : 0 < L) :
    capLimitTransform L 0 = 0 ∧
    (∀ s1 s2, 0 ≤ s1 → s1 ≤ s2 → capLimitTransform L s1 ≤ capLimitTransform L s2) ∧
    (∀ s, 0 ≤ s → capLimitTransform L s < L) ∧
    (∀ e, 0 < e → ∀ s, L * L / e ≤ s → L - capLimitTransform L s ≤ e) ∧
    (∀ s, 0 ≤ s → s - capLimitTransform L s ≤ s * s / L) := by
  refine ⟨?_, ?_, ?_, ?_, ?_⟩
  · unfold capLimitTransform
    simp
  · intro s1 s2 h1 h12
    unfold capLimitTransform
    have hs1 : 0 < L + s1 := by linarith
    have hs2 : 0 < L + s2 := by linarith
    rw [div_le_div_iff hs1 hs2]
    nlinarith [mul_le_mul_of_nonneg_left h12 (mul_pos hL hL).le]
  · intro s hs
    unfold capLimitTransform
    have hLs : 0 < L + s := by linarith
    rw [div_lt_iff hLs]
    nlinarith [mul_pos hL hL]
  · intro e he s hsge
    have hs : 0 ≤ s := le_trans (by positivity) hsge
    have hLs : 0 < L + s := by linarith
    have hne : L + s ≠ 0 := ne_of_gt hLs
    have key : L - capLimitTransform L s = L * L / (L + s) := by
      unfold capLimitTransform
      field_simp
      ring
    rw [key, div_le_iff hLs]
    have hLLes : L * L ≤ s * e := (div_le_iff he).mp hsge
    nlinarith [mul_pos he hL]
  · intro s hs
    have hLs : 0 < L + s := by linarith
    have hne : L + s ≠ 0 := ne_of_gt hLs
    have key : s - capLimitTransform L s = s * s / (L + s) := by
      unfold capLimitTransform
      field_simp
      ring
    rw [key, div_le_div_iff hLs hL]
    nlinarith [mul_nonneg (mul_nonneg hs hs) hs]

/-- Witness for C2: the transform with cap 1 is 0 at share 0. -/
theorem capLimitTransform_spec_witness :
    (0 : ℚ) < 1 ∧ capLimitTransform 1 0 = 0 :=
  ⟨by norm_num, (capLimitTransform_spec 1 (by norm_num)).1⟩

/-- Sum of a list divided termwise by a constant. -/
theorem listSum_map_div (l : List ℚ) (c : ℚ) : (l.map fun u => u / c).sum = l.sum / c := by
  induction l with
  | nil => simp
  | cons a tl ih => simp [List.sum_cons, ih, add_div]

/-- Claim C1: with positive share weights and positive prices and no
capacity limit in play, `calcShare` writes the period's share entry with
the logit-normalized shares, and those shares sum to exactly 1. -/
theorem calcShare_spec (sc : ShareComputer) (t : Nat) (hne : sc.children ≠ [])
    (hpos : ∀ c ∈ sc.children, 0 < c.shareWeight t ∧ 0 < c.price t)
    (ht : t < sc.share.length) :
    (calcShare sc t).share[t]? = some (calcShareList sc t) ∧
    (calcShareList sc t).sum = 1 := by
  have hsum : 0 < (sc.children.map fun c =>
      c.shareWeight t * c.price t ^ (-sc.lexp)).sum := by
    apply List.sum_pos
    · intro a ha
      rcases List.mem_map.mp ha with ⟨c, hc, rfl⟩
      exact mul_pos (hpos c hc).1 (zpow_pos (hpos c hc).2 _)
    · simpa using hne
  constructor
  · show (sc.share.set t (calcShareList sc t))[t]? = some (calcShareList sc t)
    exact List.getElem?_set_eq_of_lt _ ht
  · show ((sc.children.map fun c => c.shareWeight t * c.price t ^ (-sc.lexp)).map
      fun u => u / (sc.children.map fun c =>
        c.shareWeight t * c.price t ^ (-sc.lexp)).sum).sum = 1
    rw [listSum_map_div]
    exact div_self (ne_of_gt hsum)

/-- Witness for C1: two children with unit weights and unit prices yield
shares that sum to 1. -/
theorem calcShare_spec_witness :
    ((⟨[⟨fun _ => 1, fun _ => 1⟩, ⟨fun _ => 1, fun _ => 1⟩], 2, [[]], []⟩ :
        ShareComputer).children ≠ []) ∧
    (calcShareList
      (⟨[⟨fun _ => 1, fun _ => 1⟩, ⟨fun _ => 1, fun _ => 1⟩], 2, [[]], []⟩ :
        ShareComputer) 0).sum = 1 := by
  refine ⟨by simp, (calcShare_spec
    (⟨[⟨fun _ => 1, fun _ => 1⟩, ⟨fun _ => 1, fun _ => 1⟩], 2, [[]], []⟩ :
      ShareComputer) 0 (by simp) ?_ (by decide)).2⟩
  intro c hc
  rcases List.mem_cons.mp hc with rfl | hc2
  · exact ⟨one_pos, one_pos⟩
  · rcases List.mem_cons.mp hc2 with rfl | hc3
    · exact ⟨one_pos, one_pos⟩
    · cases hc3

end GcamCore
